import Mathlib

/-!
Shairport Sync: the sndio output driver (`audio_sndio.c`)

A shallow embedding of the module state and operations of the driver, followed
by results on the playback-delay estimator, the reset behaviour of
`flush`/`stop`/`play`, the rate validation and the format negotiation of
`init`.

Target model: LP64.  `size_t` and `uint64_t` are unsigned 64-bit, `long` is
signed 64-bit, `int` is signed 32-bit and `unsigned int` is unsigned 32-bit.
Unsigned values are natural numbers reduced `% 2 ^ 64` (or `% 2 ^ 32`) where the
C operation wraps; signed values are integers.
-/

namespace AudioSndio

/-! ## Machine arithmetic -/

/-- Unsigned 64-bit addition (`size_t`/`uint64_t` `+`). -/
def add64 (a b : Nat) : Nat := (a + b) % 2 ^ 64

/-- Unsigned 64-bit subtraction (`size_t`/`uint64_t` `-`), wrapping below zero. -/
def sub64 (a b : Nat) : Nat := (a % 2 ^ 64 + (2 ^ 64 - b % 2 ^ 64)) % 2 ^ 64

/-- Unsigned 64-bit multiplication (`uint64_t` `*`). -/
def mul64 (a b : Nat) : Nat := (a * b) % 2 ^ 64

/-- Unsigned division; `none` is the division-by-zero trap. -/
def udiv (a b : Nat) : Option Nat := if b = 0 then none else some (a / b)

/-- Conversion of an `int` operand to `size_t` (value modulo `2 ^ 64`). -/
def int_to_size_t (i : Int) : Nat := (i % 2 ^ 64).toNat

/-- Conversion of a `size_t` value to `long` (two's complement). -/
def to_long (n : Nat) : Int :=
  if n % 2 ^ 64 < 2 ^ 63 then ((n % 2 ^ 64 : Nat) : Int) else ((n % 2 ^ 64 : Nat) : Int) - 2 ^ 64

/-- Conversion of an `unsigned int` value to `int` (two's complement). -/
def to_int (n : Nat) : Int :=
  if n % 2 ^ 32 < 2 ^ 31 then ((n % 2 ^ 32 : Nat) : Int) else ((n % 2 ^ 32 : Nat) : Int) - 2 ^ 32

/-- Conversion of an `int` value to `unsigned int` (value modulo `2 ^ 32`). -/
def to_uint (i : Int) : Nat := (i % 2 ^ 32).toNat

/-! ## Module state -/

/-- The fields of the sndio library type `struct sio_par` that the driver reads
or writes. -/
structure sio_par where
  bits : Nat
  bps : Nat
  sig : Nat
  le : Nat
  pchan : Nat
  rate : Nat
  bufsz : Nat
  round : Nat
  appbufsz : Nat
deriving DecidableEq, Repr

/-- The file-scope variables of `audio_sndio.c`.  `hdl` records whether the
device handle is non-NULL. -/
structure State where
  hdl : Bool
  is_running : Int
  framesize : Int
  played : Nat
  written : Nat
  time_of_last_onmove_cb : Nat
  at_least_one_onmove_cb_seen : Int
  par : sio_par
deriving DecidableEq, Repr

/-- Every variable holds a value of its C type. -/
def InRange (s : State) : Prop :=
  (-(2 ^ 31) ≤ s.is_running ∧ s.is_running < 2 ^ 31) ∧
  (-(2 ^ 31) ≤ s.framesize ∧ s.framesize < 2 ^ 31) ∧
  s.played < 2 ^ 64 ∧ s.written < 2 ^ 64 ∧
  s.time_of_last_onmove_cb < 2 ^ 64 ∧
  (-(2 ^ 31) ≤ s.at_least_one_onmove_cb_seen ∧ s.at_least_one_onmove_cb_seen < 2 ^ 31) ∧
  s.par.rate < 2 ^ 32

instance (s : State) : Decidable (InRange s) := by
  unfold InRange; infer_instance

/-! ## The position callback -/

/-- `onmove_cb` (lines 66-70).  `now` is the value returned by
`get_absolute_time_in_ns()`; `delta` is the `int` passed by the device and is
converted to `size_t` for `played += delta`. -/
def onmove_cb (s : State) (now : Nat) (delta : Int) : State :=
  { s with
    time_of_last_onmove_cb := now % 2 ^ 64
    at_least_one_onmove_cb_seen := 1
    played := add64 s.played (int_to_size_t delta) }

/-! ## The delay estimator -/

/-- Line 271: `(time_difference * par.rate) / 1000000000` in `uint64_t`. -/
def frame_difference (time_difference rate : Nat) : Nat :=
  mul64 time_difference rate / 1000000000

/-- Lines 266-280 of `get_delay`: the extrapolated frame count after the sanity
check.  `none` when `written / framesize` divides by zero. -/
def estimated_extra_frames_output (s : State) (now : Nat) : Option Nat :=
  if s.at_least_one_onmove_cb_seen ≠ 0 then
    let time_difference := sub64 now s.time_of_last_onmove_cb
    let e := frame_difference time_difference s.par.rate
    (udiv s.written (int_to_size_t s.framesize)).map fun q =>
      if add64 e s.played > q then 0 else e
  else some 0

/-- `get_delay` (lines 264-284).  `delay = none` is a NULL pointer, `some v` a
pointer to a `long` currently holding `v`.  The result is the returned
`response` and the content of the pointed-to `long` afterwards; `none` when a
division by zero is reached. -/
def get_delay (s : State) (now : Nat) (delay : Option Int) : Option (Int × Option Int) :=
  (estimated_extra_frames_output s now).bind fun est =>
    match delay with
    | none => some (0, none)
    | some _ =>
      (udiv s.written (int_to_size_t s.framesize)).map fun q =>
        (0, some (to_long (sub64 q (add64 s.played est))))

/-- The outcome of the `delay` entry point: the module state afterwards, the
returned status and the `long` cell of the caller. -/
structure DelayResult where
  state : State
  result : Int
  delay : Option Int
deriving DecidableEq, Repr

/-- `delay` (lines 286-302). -/
def delay (s : State) (now : Nat) (d : Option Int) : Option DelayResult :=
  if s.hdl then
    if s.is_running ≠ 0 then
      (get_delay s now d).map fun r => { state := s, result := r.1, delay := r.2 }
    else
      some { state := s, result := 0, delay := d.map fun _ => 0 }
  else
    some { state := s, result := 0, delay := d }

/-! ## Play, stop, flush, deinit -/

/-- The restart block of `play` (lines 230-241). -/
def play_restart (s : State) : State :=
  if s.is_running = 0 then
    if s.hdl then
      { s with
        is_running := 1
        written := 0
        played := 0
        time_of_last_onmove_cb := 0
        at_least_one_onmove_cb_seen := 0 }
    else s
  else s

/-- `play` (lines 225-246).  `sio_write_ret` is the byte count returned by
`sio_write`. -/
def play (s : State) (frames : Int) (sio_write_ret : Nat) : State :=
  if frames > 0 then
    let s1 := play_restart s
    { s1 with written := add64 s1.written sio_write_ret }
  else s

/-- `stop` (lines 248-262). -/
def stop (s : State) : State :=
  if s.hdl then
    if s.is_running ≠ 0 then
      { s with written := 0, played := 0, is_running := 0 }
    else s
  else s

/-- `flush` (lines 304-318). -/
def flush (s : State) : State :=
  if s.hdl then
    if s.is_running ≠ 0 then
      { s with written := 0, played := 0, is_running := 0 }
    else s
  else s

/-- `deinit` (lines 212-223). -/
def deinit (s : State) : State :=
  if s.hdl then
    let s1 := if s.is_running ≠ 0 then { s with is_running := 0 } else s
    { s1 with hdl := false }
  else s

/-! ## Initialisation -/

/-- Modelled from the spec: the enumeration `sps_format_t` is declared in a
header of the repository that is not part of the driver file.  The seven
enumerators the driver names are distinct constants; every other enumerator is
`SPS_FORMAT_OTHER n`. -/
inductive sps_format_t
  | SPS_FORMAT_S8
  | SPS_FORMAT_U8
  | SPS_FORMAT_S16
  | SPS_FORMAT_S24
  | SPS_FORMAT_S24_3LE
  | SPS_FORMAT_S24_3BE
  | SPS_FORMAT_S32
  | SPS_FORMAT_OTHER (n : Nat)
deriving DecidableEq, Repr

open sps_format_t

/-- `struct sndio_formats` (lines 42-50). -/
structure sndio_formats where
  name : String
  fmt : sps_format_t
  rate : Nat
  bits : Nat
  bps : Nat
  sig : Nat
  le : Nat
deriving DecidableEq, Repr

/-- The static table `formats` (lines 52-60).  `SIO_LE_NATIVE` is the sndio
library constant for the byte order of the host (1 little endian, 0 big
endian) and is a parameter here. -/
def formats (SIO_LE_NATIVE : Nat) : List sndio_formats :=
  [ { name := "S8", fmt := SPS_FORMAT_S8, rate := 44100, bits := 8, bps := 1, sig := 1,
      le := SIO_LE_NATIVE },
    { name := "U8", fmt := SPS_FORMAT_U8, rate := 44100, bits := 8, bps := 1, sig := 0,
      le := SIO_LE_NATIVE },
    { name := "S16", fmt := SPS_FORMAT_S16, rate := 44100, bits := 16, bps := 2, sig := 1,
      le := SIO_LE_NATIVE },
    { name := "AUTOMATIC", fmt := SPS_FORMAT_S16, rate := 44100, bits := 16, bps := 2, sig := 1,
      le := SIO_LE_NATIVE },
    { name := "S24", fmt := SPS_FORMAT_S24, rate := 44100, bits := 24, bps := 4, sig := 1,
      le := SIO_LE_NATIVE },
    { name := "S24_3LE", fmt := SPS_FORMAT_S24_3LE, rate := 44100, bits := 24, bps := 3, sig := 1,
      le := 1 },
    { name := "S24_3BE", fmt := SPS_FORMAT_S24_3BE, rate := 44100, bits := 24, bps := 3, sig := 1,
      le := 0 },
    { name := "S32", fmt := SPS_FORMAT_S32, rate := 44100, bits := 32, bps := 4, sig := 1,
      le := SIO_LE_NATIVE } ]

/-- The character a C string holds at its head after `tolower`, as a number;
0 is the terminating NUL. -/
def cchar : List Char → Nat
  | [] => 0
  | c :: _ => c.toLower.toNat

/-- The C library function `strcasecmp`: walk both strings while the lowered
characters agree, stop with 0 at the terminator, otherwise return the
difference of the first pair that differs.  The driver only tests the result
against 0. -/
def strcasecmp : List Char → List Char → Int
  | [], bs => 0 - (cchar bs : Int)
  | a :: as, bs =>
    if cchar (a :: as) = cchar bs then
      if cchar (a :: as) = 0 then 0 else strcasecmp as bs.tail
    else (cchar (a :: as) : Int) - (cchar bs : Int)

/-- The sndio library function `sio_initpar`: every field is set to all-ones. -/
def sio_initpar : sio_par :=
  { bits := 2 ^ 32 - 1, bps := 2 ^ 32 - 1, sig := 2 ^ 32 - 1, le := 2 ^ 32 - 1,
    pchan := 2 ^ 32 - 1, rate := 2 ^ 32 - 1, bufsz := 2 ^ 32 - 1, round := 2 ^ 32 - 1,
    appbufsz := 2 ^ 32 - 1 }

/-- The sndio library helper `SIO_BPS(bits)`. -/
def SIO_BPS (bits : Nat) : Nat := if bits ≤ 8 then 1 else if bits ≤ 16 then 2 else 4

/-- The sndio library constant `SIO_DEVANY`. -/
def SIO_DEVANY : String := "default"

/-- The fatal exits of `init`, one per `die` call. -/
inductive Fatal
  | rate
  | bufsz
  | round
  | format (tmp : String)
  | option (opt : Int)
  | argument
  | cannot_open
  | setpar
  | negotiate
  | rate_zero
  | framesize_zero
deriving DecidableEq, Repr

/-- What `init` reads from the settings file: whether `config.cfg` is non-NULL,
the result of each `config_lookup_*` call (`none` when the key is absent), and
the value of `config.output_format` left by `parse_general_audio_options`. -/
structure Settings where
  cfg : Bool
  device : Option String
  rate : Option Int
  bufsz : Option Int
  round : Option Int
  format : Option String
  output_format : sps_format_t

/-- The sndio device as `init` sees it: whether `sio_open` returns a handle for
a device name, and the parameters `sio_getpar` reports after `sio_setpar` was
given a request (`none` when either call fails). -/
structure Device where
  sio_open : String → Bool
  sio_setpar_getpar : sio_par → Option sio_par

/-- What `init` leaves behind on success: the module state and the two
`config` fields it assigns. -/
structure InitResult where
  state : State
  output_format : sps_format_t
  output_rate : Nat
deriving DecidableEq, Repr

/-- Lines 104-111: the `sndio.rate` key. -/
def init_rate (par : sio_par) : Option Int → Except Fatal sio_par
  | none => .ok par
  | some rate =>
    if Int.tmod rate 44100 = 0 ∧ rate ≥ 44100 ∧ rate ≤ 352800 then
      .ok { par with rate := to_uint rate }
    else .error Fatal.rate

/-- Lines 112-118: the `sndio.bufsz` key. -/
def init_bufsz (par : sio_par) : Option Int → Except Fatal sio_par
  | none => .ok par
  | some bufsz =>
    if bufsz > 0 then .ok { par with appbufsz := to_uint bufsz } else .error Fatal.bufsz

/-- Lines 119-125: the `sndio.round` key. -/
def init_round (par : sio_par) : Option Int → Except Fatal sio_par
  | none => .ok par
  | some round =>
    if round > 0 then .ok { par with round := to_uint round } else .error Fatal.round

/-- Lines 127-133: the first table entry whose name equals `tmp` ignoring case. -/
def lookup_format (SIO_LE_NATIVE : Nat) (tmp : String) : Option sndio_formats :=
  (formats SIO_LE_NATIVE).find? fun f => decide (strcasecmp f.name.toList tmp.toList = 0)

/-- Lines 126-138: the `sndio.format` key; the result is `config.output_format`. -/
def init_format (SIO_LE_NATIVE : Nat) (output_format : sps_format_t) :
    Option String → Except Fatal sps_format_t
  | none => .ok output_format
  | some tmp =>
    match lookup_format SIO_LE_NATIVE tmp with
    | some f => .ok f.fmt
    | none => .error (Fatal.format tmp)

/-- Lines 143-152: the `getopt` loop.  Each element is a returned option
character (greater than zero) with its `optarg`; 100 is the character d. -/
def init_getopt (devname : String) : List (Int × String) → Except Fatal String
  | [] => .ok devname
  | (opt, optarg) :: rest =>
    if opt = 100 then init_getopt optarg rest else .error (Fatal.option opt)

/-- Lines 170-178: load the parameters of the first table entry whose logical
format is `output_format`. -/
def load_format (SIO_LE_NATIVE : Nat) (output_format : sps_format_t) (par : sio_par) : sio_par :=
  match (formats SIO_LE_NATIVE).find? fun f => decide (f.fmt = output_format) with
  | some f => { par with bits := f.bits, bps := f.bps, sig := f.sig, le := f.le }
  | none => par

/-- Lines 182-189: the first table entry equal to the negotiated parameters in
bits, bps, sig, le and rate (`found = 1`), or `none` (`found = 0`). -/
def match_format (SIO_LE_NATIVE : Nat) (par : sio_par) : Option sndio_formats :=
  (formats SIO_LE_NATIVE).find? fun f =>
    decide (f.bits = par.bits ∧ f.bps = par.bps ∧ f.sig = par.sig ∧ f.le = par.le ∧
      f.rate = par.rate)

/-- What the settings part of `init` (lines 77-154) hands to the device part:
the requested parameters, `config.output_format` and the device name. -/
structure InitSettings where
  par : sio_par
  output_format : sps_format_t
  devname : String
deriving DecidableEq, Repr

/-- Lines 77-139 of `init`: the defaults and the keys of the settings file. -/
def init_config (SIO_LE_NATIVE : Nat) (cfg : Settings) : Except Fatal InitSettings :=
  let par0 : sio_par :=
    { sio_initpar with rate := 44100, pchan := 2, bits := 16, bps := SIO_BPS 16, le := 1, sig := 1 }
  if cfg.cfg then do
    let par1 ← init_rate par0 cfg.rate
    let par2 ← init_bufsz par1 cfg.bufsz
    let par3 ← init_round par2 cfg.round
    let output_format ← init_format SIO_LE_NATIVE cfg.output_format cfg.format
    pure { par := par3, output_format := output_format, devname := cfg.device.getD SIO_DEVANY }
  else
    pure { par := par0, output_format := cfg.output_format, devname := SIO_DEVANY }

/-- Lines 77-154 of `init`: settings file, then the command line.  `opts` and
`optind_lt_argc` describe what `getopt` returns. -/
def init_settings (SIO_LE_NATIVE : Nat) (cfg : Settings) (opts : List (Int × String))
    (optind_lt_argc : Bool) : Except Fatal InitSettings := do
  let c ← init_config SIO_LE_NATIVE cfg
  let devname ← init_getopt c.devname opts
  if optind_lt_argc then Except.error Fatal.argument
  else pure { c with devname := devname }

/-- Lines 155-210 of `init`: open the device, negotiate the parameters and set
up the module state.  The floating-point `config` fields are not modelled. -/
def init_device (SIO_LE_NATIVE : Nat) (st : InitSettings) (dev : Device) :
    Except Fatal InitResult :=
  if dev.sio_open st.devname = false then Except.error Fatal.cannot_open
  else
    match dev.sio_setpar_getpar (load_format SIO_LE_NATIVE st.output_format st.par) with
    | none => Except.error Fatal.setpar
    | some par =>
      match match_format SIO_LE_NATIVE par with
      | none => Except.error Fatal.negotiate
      | some f =>
        if par.rate = 0 then Except.error Fatal.rate_zero
        else if to_int ((par.bps * par.pchan) % 2 ^ 32) = 0 then
          Except.error Fatal.framesize_zero
        else
          Except.ok
            { state :=
                { hdl := true, is_running := 0,
                  framesize := to_int ((par.bps * par.pchan) % 2 ^ 32), played := 0,
                  written := 0, time_of_last_onmove_cb := 0, at_least_one_onmove_cb_seen := 0,
                  par := par }
              output_format := f.fmt
              output_rate := par.rate }

/-- `init` (lines 72-210). -/
def init (SIO_LE_NATIVE : Nat) (cfg : Settings) (opts : List (Int × String))
    (optind_lt_argc : Bool) (dev : Device) : Except Fatal InitResult := do
  let st ← init_settings SIO_LE_NATIVE cfg opts optind_lt_argc
  init_device SIO_LE_NATIVE st dev

/-! ## The adapter as a state machine -/

/-- The calls that reach the module state after `init`. -/
inductive Event
  | play (frames : Int) (sio_write_ret : Nat)
  | stop
  | flush
  | delay (now : Nat) (d : Option Int)
  | onmove_cb (now : Nat) (delta : Int)
  | deinit
deriving DecidableEq, Repr

/-- One call applied to the module state. -/
def step (s : State) : Event → State
  | .play frames sio_write_ret => play s frames sio_write_ret
  | .stop => stop s
  | .flush => flush s
  | .delay now d =>
    match delay s now d with
    | some r => r.state
    | none => s
  | .onmove_cb now delta => onmove_cb s now delta
  | .deinit => deinit s

/-- A sequence of calls applied in order. -/
def run (s : State) (es : List Event) : State := es.foldl step s

/-- The counter invariant of the specification (section 3):
`played <= written / framesize`. -/
def CounterInv (s : State) : Prop := s.played ≤ s.written / int_to_size_t s.framesize

instance (s : State) : Decidable (CounterInv s) := by
  unfold CounterInv; infer_instance

/-- What the surroundings must guarantee for a call: the byte counter does not
wrap when `play` adds the bytes written, and the device never reports through
`onmove_cb` a negative advance or more frames played than were written. -/
def EnvOk (s : State) : Event → Prop
  | .play frames sio_write_ret => frames > 0 → (play_restart s).written + sio_write_ret < 2 ^ 64
  | .onmove_cb _ delta =>
    0 ≤ delta ∧ (s.played : Int) + delta ≤ ((s.written / int_to_size_t s.framesize : Nat) : Int)
  | _ => True

instance (s : State) (e : Event) : Decidable (EnvOk s e) := by
  cases e <;> unfold EnvOk <;> infer_instance

/-- Every call of the sequence meets `EnvOk` in the state it is applied to. -/
def TraceOk : State → List Event → Prop
  | _, [] => True
  | s, e :: es => EnvOk s e ∧ TraceOk (step s e) es

instance decTraceOk : (s : State) → (es : List Event) → Decidable (TraceOk s es)
  | _, [] => isTrue trivial
  | s, e :: es =>
    have := decTraceOk (step s e) es
    inferInstanceAs (Decidable (EnvOk s e ∧ TraceOk (step s e) es))

/-- The states `init` establishes: handle open, not running, counters zero,
frame size positive. -/
def InitState (s : State) : Prop :=
  s.hdl = true ∧ s.is_running = 0 ∧ s.played = 0 ∧ s.written = 0 ∧
  s.time_of_last_onmove_cb = 0 ∧ s.at_least_one_onmove_cb_seen = 0 ∧
  0 < s.framesize ∧ s.framesize < 2 ^ 31

instance (s : State) : Decidable (InitState s) := by
  unfold InitState; infer_instance

/-! ## Reference definitions written from the specification -/

/-- The delay estimate as the specification words it (section 4.1): with
`e = floor(elapsedNs * sampleRate / 10^9)` and `q = framesWritten / frameSizeBytes`,
the estimate is `q - (played + e)` when `played + e <= q` and `q - played`
otherwise.  All arithmetic is on unbounded integers. -/
def spec_delay (s : State) (now : Nat) : Int :=
  let e : Int := Int.fdiv (((now : Int) - s.time_of_last_onmove_cb) * s.par.rate) 1000000000
  let q : Int := Int.fdiv s.written s.framesize
  if s.played + e ≤ q then q - (s.played + e) else q - s.played

/-- No 64-bit operation of `get_delay` wraps: the product and the sum fit in
`uint64_t`/`size_t` and the difference stored through the pointer fits in `long`. -/
def NoOverflow64 (s : State) (now : Nat) : Prop :=
  now < 2 ^ 64 ∧
  (now - s.time_of_last_onmove_cb) * s.par.rate < 2 ^ 64 ∧
  s.played + (now - s.time_of_last_onmove_cb) * s.par.rate / 1000000000 < 2 ^ 64 ∧
  -(2 ^ 63) ≤ spec_delay s now ∧ spec_delay s now < 2 ^ 63

instance (s : State) (now : Nat) : Decidable (NoOverflow64 s now) := by
  unfold NoOverflow64; infer_instance

/-! ## Auxiliary definitions and example inputs -/

/-- The lowered characters of a C string up to its terminator. -/
def lowcut : List Char → List Nat
  | [] => []
  | c :: cs => if c.toLower.toNat = 0 then [] else c.toLower.toNat :: lowcut cs

/-- The scenario state of the specification: rate 44100, frame size 4, 176400
bytes written, 22050 frames played at the last callback, which came at time 0. -/
def scenario_state : State :=
  { hdl := true, is_running := 1, framesize := 4, played := 22050, written := 176400,
    time_of_last_onmove_cb := 0, at_least_one_onmove_cb_seen := 1,
    par := { bits := 16, bps := 2, sig := 1, le := 1, pchan := 2, rate := 44100, bufsz := 0,
             round := 0, appbufsz := 0 } }

/-- The state `init` leaves for a stereo 16-bit device at 44100 Hz. -/
def init_state_example : State :=
  { hdl := true, is_running := 0, framesize := 4, played := 0, written := 0,
    time_of_last_onmove_cb := 0, at_least_one_onmove_cb_seen := 0,
    par := { bits := 16, bps := 2, sig := 1, le := 1, pchan := 2, rate := 44100, bufsz := 0,
             round := 0, appbufsz := 0 } }

/-- A device that opens under every name and reports back whatever parameters
are requested, with a buffer of 8820 frames. -/
def echo_device : Device :=
  { sio_open := fun _ => true
    sio_setpar_getpar := fun req => some { req with bufsz := 8820 } }

/-- A settings file that holds the keys `sndio.rate` and `sndio.format`. -/
def example_settings (rate : Int) (format : String) : Settings :=
  { cfg := true, device := none, rate := some rate, bufsz := none, round := none,
    format := some format, output_format := SPS_FORMAT_OTHER 0 }

/-! ## Arithmetic lemmas -/

theorem add64_eq {a b : Nat} (h : a + b < 2 ^ 64) : add64 a b = a + b := by
  unfold add64; omega

theorem sub64_eq {a b : Nat} (ha : a < 2 ^ 64) (hb : b ≤ a) : sub64 a b = a - b := by
  unfold sub64; omega

theorem mul64_eq {a b : Nat} (h : a * b < 2 ^ 64) : mul64 a b = a * b := by
  unfold mul64; exact Nat.mod_eq_of_lt h

theorem int_to_size_t_natCast {k : Nat} (h : k < 2 ^ 64) : int_to_size_t (k : Int) = k := by
  unfold int_to_size_t; omega

theorem to_long_sub64 {q x : Nat}
    (hlo : -(2 ^ 63) ≤ (q : Int) - x) (hhi : (q : Int) - x < 2 ^ 63) :
    to_long (sub64 q x) = (q : Int) - x := by
  unfold to_long sub64
  split_ifs <;> omega

theorem fdiv_natCast (a b : Nat) : Int.fdiv (a : Int) (b : Int) = ((a / b : Nat) : Int) := by
  rw [Int.fdiv_eq_ediv _ (Int.ofNat_nonneg b)]; rfl


theorem int_to_size_t_pos {f : Int} (h0 : 0 < f) (h1 : f < 2 ^ 31) :
    ∃ k : Nat, f = (k : Int) ∧ 0 < k ∧ k < 2 ^ 31 ∧ int_to_size_t f = k := by
  refine ⟨f.toNat, by omega, by omega, by omega, ?_⟩
  unfold int_to_size_t; omega

theorem frame_difference_lt (a b : Nat) : frame_difference a b < 2 ^ 35 := by
  unfold frame_difference mul64; omega

theorem frame_difference_eq {a b : Nat} (h : a * b < 2 ^ 64) :
    frame_difference a b = a * b / 1000000000 := by
  unfold frame_difference; rw [mul64_eq h]

/-- The estimator on a state whose frame size is the positive number `k`. -/
theorem get_delay_some (s : State) (now : Nat) (cell : Int) {k : Nat}
    (hk : int_to_size_t s.framesize = k) (hpos : 0 < k) :
    get_delay s now (some cell) =
      some (0, some (to_long (sub64 (s.written / k) (add64 s.played
        (if s.at_least_one_onmove_cb_seen ≠ 0 then
          (if add64 (frame_difference (sub64 now s.time_of_last_onmove_cb) s.par.rate) s.played
              > s.written / k then 0
           else frame_difference (sub64 now s.time_of_last_onmove_cb) s.par.rate)
         else 0))))) := by
  have hk0 : k ≠ 0 := by omega
  unfold get_delay estimated_extra_frames_output udiv
  rw [hk]
  by_cases hseen : s.at_least_one_onmove_cb_seen = 0
  · simp [hseen, hk0]
  · simp [hseen, hk0]

/-- The extrapolation on a state whose frame size is the positive number `k`. -/
theorem estimated_some (s : State) (now : Nat) {k : Nat}
    (hk : int_to_size_t s.framesize = k) (hpos : 0 < k) :
    estimated_extra_frames_output s now =
      some (if s.at_least_one_onmove_cb_seen ≠ 0 then
          (if add64 (frame_difference (sub64 now s.time_of_last_onmove_cb) s.par.rate) s.played
              > s.written / k then 0
           else frame_difference (sub64 now s.time_of_last_onmove_cb) s.par.rate)
         else 0) := by
  have hk0 : k ≠ 0 := by omega
  unfold estimated_extra_frames_output udiv
  rw [hk]
  by_cases hseen : s.at_least_one_onmove_cb_seen = 0
  · simp [hseen]
  · simp [hseen, hk0]

theorem spec_delay_eq (s : State) (now : Nat) {k : Nat} (hk : s.framesize = (k : Int))
    (hnow : s.time_of_last_onmove_cb ≤ now) :
    spec_delay s now =
      if s.played + (now - s.time_of_last_onmove_cb) * s.par.rate / 1000000000 ≤ s.written / k then
        ((s.written / k : Nat) : Int) -
          ((s.played + (now - s.time_of_last_onmove_cb) * s.par.rate / 1000000000 : Nat) : Int)
      else ((s.written / k : Nat) : Int) - (s.played : Int) := by
  unfold spec_delay
  rw [hk]
  have h1 : ((now : Int) - (s.time_of_last_onmove_cb : Int)) * (s.par.rate : Int)
      = (((now - s.time_of_last_onmove_cb) * s.par.rate : Nat) : Int) := by
    push_cast [Nat.cast_sub hnow]; ring
  have h2 : (1000000000 : Int) = ((1000000000 : Nat) : Int) := by norm_num
  rw [h1, h2, fdiv_natCast, fdiv_natCast]
  simp only []
  split_ifs with ha hb hb
  · push_cast; ring
  · exfalso; apply hb; exact_mod_cast ha
  · exfalso; apply ha; exact_mod_cast hb
  · rfl

/-! ## C1: the estimator against the reference definition -/

/-- C1: with a callback seen, a positive frame size, `now` not before the last
callback and no 64-bit overflow, `get_delay` stores exactly the reference value
`spec_delay`: `written/framesize - (played + e)` when `played + e` does not
exceed `written/framesize`, and `written/framesize - played` otherwise, where
`e = floor((now - time_of_last_onmove_cb) * par.rate / 10^9)`. -/
theorem C1_get_delay_refines_spec (s : State) (now : Nat) (cell : Int)
    (hseen : s.at_least_one_onmove_cb_seen ≠ 0) (hfs : 0 < s.framesize) (hrange : InRange s)
    (hnow : s.time_of_last_onmove_cb ≤ now) (hno : NoOverflow64 s now) :
    get_delay s now (some cell) = some (0, some (spec_delay s now)) ∧
    (s.played + (now - s.time_of_last_onmove_cb) * s.par.rate / 1000000000
        ≤ s.written / s.framesize.toNat →
      spec_delay s now = ((s.written / s.framesize.toNat : Nat) : Int) -
        ((s.played + (now - s.time_of_last_onmove_cb) * s.par.rate / 1000000000 : Nat) : Int)) ∧
    (s.played + (now - s.time_of_last_onmove_cb) * s.par.rate / 1000000000
        > s.written / s.framesize.toNat →
      spec_delay s now = ((s.written / s.framesize.toNat : Nat) : Int) - (s.played : Int)) := by
  obtain ⟨k, hk, hkpos, -, hsz⟩ := int_to_size_t_pos hfs hrange.2.1.2
  obtain ⟨hnow64, hmul, hadd, hlo, hhi⟩ := hno
  have hk' : s.framesize.toNat = k := by omega
  rw [hk', spec_delay_eq s now hk hnow] at *
  refine ⟨?_, fun h => by rw [if_pos h], fun h => by rw [if_neg (by omega)]⟩
  rw [get_delay_some s now cell hsz hkpos, if_pos hseen, sub64_eq hnow64 hnow,
    frame_difference_eq hmul]
  have hE : add64 ((now - s.time_of_last_onmove_cb) * s.par.rate / 1000000000) s.played
      = s.played + (now - s.time_of_last_onmove_cb) * s.par.rate / 1000000000 := by
    rw [add64_eq (by omega)]; omega
  rw [hE]
  by_cases h : s.played + (now - s.time_of_last_onmove_cb) * s.par.rate / 1000000000
      ≤ s.written / k
  · rw [if_pos h] at hlo hhi ⊢
    rw [if_neg (by omega), add64_eq hadd, to_long_sub64 hlo hhi]
  · rw [if_neg h] at hlo hhi ⊢
    rw [if_pos (by omega), add64_eq (by have := hrange.2.2.1; omega),
      to_long_sub64 (by simpa using hlo) (by simpa using hhi)]
    simp

/-- C1 at the two scenarios of the specification: a query 0.25 s and 2 s after
the callback. -/
theorem C1_witness :
    get_delay scenario_state 250000000 (some 0) = some (0, some 11025) ∧
    get_delay scenario_state 2000000000 (some 0) = some (0, some 22050) :=
  ⟨(C1_get_delay_refines_spec scenario_state 250000000 0 (by decide) (by decide) (by decide)
      (by decide) (by decide)).1.trans (by decide),
   (C1_get_delay_refines_spec scenario_state 2000000000 0 (by decide) (by decide) (by decide)
      (by decide) (by decide)).1.trans (by decide)⟩

/-! ## C2: the extrapolated frame count -/

theorem floor_rat_eq_div (a b : Nat) :
    ⌊(a : ℚ) * (b : ℚ) / 1000000000⌋₊ = a * b / 1000000000 := by
  have h := Nat.floor_div_eq_div (α := ℚ) (a * b) 1000000000
  push_cast at h
  exact h

/-- C2 (as stated, refuted): at 5 * 10^14 ns elapsed and rate 44100 the 64-bit
product wraps; the code computes 3603255926 while the floor of the exact
quotient is 22050000000. -/
theorem C2_counterexample :
    (500000000000000 < 2 ^ 64 ∧ 0 < 44100 ∧ 44100 < 2 ^ 32) ∧
    frame_difference 500000000000000 44100
      ≠ ⌊((500000000000000 : Nat) : ℚ) * ((44100 : Nat) : ℚ) / 1000000000⌋₊ ∧
    frame_difference 500000000000000 44100 = 3603255926 ∧
    ⌊((500000000000000 : Nat) : ℚ) * ((44100 : Nat) : ℚ) / 1000000000⌋₊ = 22050000000 := by
  rw [floor_rat_eq_div]
  exact ⟨by decide, by decide, by decide, by decide⟩

/-- C2 (amended): the `frame_difference` of `get_delay` equals the mathematical
`floor(elapsedNs * sampleRate / 10^9)` exactly when the product
`elapsedNs * sampleRate` fits in 64 bits, and it is never negative. -/
theorem C2_frame_difference_floor (elapsedNs sampleRate : Nat) :
    (frame_difference elapsedNs sampleRate
        = ⌊(elapsedNs : ℚ) * (sampleRate : ℚ) / 1000000000⌋₊
      ↔ elapsedNs * sampleRate < 2 ^ 64) ∧
    0 ≤ (frame_difference elapsedNs sampleRate : Int) := by
  refine ⟨?_, Int.ofNat_nonneg _⟩
  rw [floor_rat_eq_div]
  unfold frame_difference mul64
  omega

/-- C2 at 0.25 s elapsed and rate 44100: 11025 frames. -/
theorem C2_witness :
    frame_difference 250000000 44100 = ⌊((250000000 : Nat) : ℚ) * ((44100 : Nat) : ℚ) / 1000000000⌋₊ ∧
    frame_difference 250000000 44100 = 11025 :=
  ⟨(C2_frame_difference_floor 250000000 44100).1.2 (by decide), by decide⟩

/-! ## C3: no callback seen -/

/-- C3: while no position callback has been seen, `get_delay` stores the value
of the C expression `written / framesize - played` (the mathematical difference
whenever that fits in a `long`), whatever the clock, the callback timestamp and
`par.rate` are. -/
theorem C3_no_callback_no_extrapolation (s : State) (now now' t' rate' : Nat) (cell : Int)
    (hseen : s.at_least_one_onmove_cb_seen = 0) (hfs : 0 < s.framesize) (hrange : InRange s) :
    get_delay s now (some cell)
      = some (0, some (to_long (sub64 (s.written / s.framesize.toNat) s.played))) ∧
    (-(2 ^ 63) ≤ ((s.written / s.framesize.toNat : Nat) : Int) - s.played ∧
      ((s.written / s.framesize.toNat : Nat) : Int) - s.played < 2 ^ 63 →
      get_delay s now (some cell)
        = some (0, some (((s.written / s.framesize.toNat : Nat) : Int) - s.played))) ∧
    get_delay { s with time_of_last_onmove_cb := t', par := { s.par with rate := rate' } } now'
        (some cell)
      = get_delay s now (some cell) := by
  obtain ⟨k, hk, hkpos, -, hsz⟩ := int_to_size_t_pos hfs hrange.2.1.2
  have hk' : s.framesize.toNat = k := by omega
  have hp : add64 s.played 0 = s.played := add64_eq (by have := hrange.2.2.1; omega)
  have h1 : get_delay s now (some cell)
      = some (0, some (to_long (sub64 (s.written / k) s.played))) := by
    rw [get_delay_some s now cell hsz hkpos, if_neg (by simpa using hseen), hp]
  rw [hk']
  refine ⟨h1, fun h => ?_, ?_⟩
  · rw [h1, to_long_sub64 h.1 h.2]
  · rw [h1, get_delay_some _ now' cell (k := k) (by simpa using hsz) hkpos]
    simp only []
    rw [if_neg (by simpa using hseen), hp]

/-- C3 at the scenario state with the callback flag cleared, queried at 2 s. -/
theorem C3_witness :
    get_delay { scenario_state with at_least_one_onmove_cb_seen := 0 } 2000000000 (some 0)
      = some (0, some 22050) :=
  ((C3_no_callback_no_extrapolation { scenario_state with at_least_one_onmove_cb_seen := 0 }
      2000000000 0 0 0 0 (by decide) (by decide) (by decide)).2.1 (by decide)).trans (by decide)

/-! ## C5: the sign of the reported delay -/

/-- C5: with a positive frame size and `written`, `played` below `2^62`, the
value stored by `get_delay` is negative exactly when `played` exceeds
`written / framesize`; when `played <= written / framesize` it lies between 0
and `written / framesize - played`, and otherwise the extrapolation is 0 and the
value is the negative number `written / framesize - played`. -/
theorem C5_sign_of_delay (s : State) (now : Nat) (cell : Int)
    (hfs : 0 < s.framesize) (hrange : InRange s)
    (hw : s.written < 2 ^ 62) (hp : s.played < 2 ^ 62) :
    ∃ d : Int, get_delay s now (some cell) = some (0, some d) ∧
      (d < 0 ↔ s.played > s.written / s.framesize.toNat) ∧
      (s.played ≤ s.written / s.framesize.toNat →
        0 ≤ d ∧ d ≤ ((s.written / s.framesize.toNat : Nat) : Int) - s.played) ∧
      (s.played > s.written / s.framesize.toNat →
        estimated_extra_frames_output s now = some 0 ∧
        d = ((s.written / s.framesize.toNat : Nat) : Int) - s.played) := by
  obtain ⟨k, hk, hkpos, -, hsz⟩ := int_to_size_t_pos hfs hrange.2.1.2
  have hk' : s.framesize.toNat = k := by omega
  have hk0 : k ≠ 0 := by omega
  have hq : s.written / k ≤ s.written := Nat.div_le_self _ _
  have hE := frame_difference_lt (sub64 now s.time_of_last_onmove_cb) s.par.rate
  rw [hk', get_delay_some s now cell hsz hkpos, estimated_some s now hsz hkpos]
  refine ⟨_, rfl, ?_⟩
  generalize frame_difference (sub64 now s.time_of_last_onmove_cb) s.par.rate = E at hE ⊢
  generalize s.written / k = q at hq ⊢
  by_cases hseen : s.at_least_one_onmove_cb_seen = 0
  · rw [if_neg (by simpa using hseen), add64_eq (by omega), to_long_sub64 (by omega) (by omega)]
    refine ⟨by omega, fun h => by omega, fun h => ⟨rfl, by omega⟩⟩
  · rw [if_pos hseen, add64_eq (show E + s.played < 2 ^ 64 by omega)]
    by_cases hc : E + s.played > q
    · rw [if_pos hc, add64_eq (by omega), to_long_sub64 (by omega) (by omega)]
      refine ⟨by omega, fun h => by omega, fun h => ⟨rfl, by omega⟩⟩
    · rw [if_neg hc, add64_eq (by omega),
        to_long_sub64 (by push_cast; omega) (by push_cast; omega)]
      refine ⟨by push_cast; omega, fun h => by push_cast; omega, fun h => by omega⟩

/-- C5 at the scenario state with 50000 frames reported played against 44100
written. -/
theorem C5_witness :
    ∃ d : Int, get_delay { scenario_state with played := 50000 } 250000000 (some 0)
        = some (0, some d) ∧ d < 0 ∧ d = -5900 := by
  obtain ⟨d, hd, hneg, -, hgt⟩ :=
    C5_sign_of_delay { scenario_state with played := 50000 } 250000000 0
      (by decide) (by decide) (by decide) (by decide)
  exact ⟨d, hd, hneg.2 (by decide), (hgt (by decide)).2.trans (by decide)⟩

/-! ## The three branches of the delay entry point -/

theorem delay_running (s : State) (now : Nat) (d : Option Int)
    (h1 : s.hdl = true) (h2 : s.is_running ≠ 0) :
    delay s now d
      = (get_delay s now d).map fun r => { state := s, result := r.1, delay := r.2 } := by
  unfold delay; rw [if_pos h1, if_pos h2]

theorem delay_open_not_running (s : State) (now : Nat) (d : Option Int)
    (h1 : s.hdl = true) (h2 : s.is_running = 0) :
    delay s now d = some { state := s, result := 0, delay := d.map fun _ => 0 } := by
  unfold delay; rw [if_pos h1, if_neg (by simpa using h2)]

theorem delay_not_open (s : State) (now : Nat) (d : Option Int) (h1 : s.hdl = false) :
    delay s now d = some { state := s, result := 0, delay := d } := by
  unfold delay; rw [if_neg (by simpa using h1)]

/-! ## C4: reset behaviour of flush, stop and the restart in play -/

theorem int_to_size_t_ne_zero {f : Int} (h : f ≠ 0) (hlo : -(2 ^ 31) ≤ f) (hhi : f < 2 ^ 31) :
    0 < int_to_size_t f := by
  unfold int_to_size_t; omega

/-- With both counters zero the estimator stores 0, whatever the flag, the
timestamp and the clock are. -/
theorem get_delay_zero_counters (s : State) (now : Nat) (cell : Int)
    (hfs : s.framesize ≠ 0) (hrange : InRange s) (hw : s.written = 0) (hp : s.played = 0) :
    get_delay s now (some cell) = some (0, some 0) := by
  have hpos := int_to_size_t_ne_zero hfs hrange.2.1.1 hrange.2.1.2
  have hE := frame_difference_lt (sub64 now s.time_of_last_onmove_cb) s.par.rate
  rw [get_delay_some s now cell rfl hpos, hw, hp]
  generalize frame_difference (sub64 now s.time_of_last_onmove_cb) s.par.rate = E at hE ⊢
  rw [Nat.zero_div, add64_eq (show E + 0 < 2 ^ 64 by omega)]
  have hest : (if s.at_least_one_onmove_cb_seen ≠ 0 then (if E + 0 > 0 then 0 else E) else 0)
      = 0 := by
    split_ifs <;> omega
  rw [hest]
  decide

/-- C4 (as stated, refuted): `flush` and `stop` on an open, running device
whose callback-seen flag is 1 leave the flag at 1. -/
theorem C4_counterexample :
    scenario_state.hdl = true ∧ scenario_state.is_running ≠ 0 ∧
    (flush scenario_state).at_least_one_onmove_cb_seen ≠ 0 ∧
    (stop scenario_state).at_least_one_onmove_cb_seen ≠ 0 := by
  decide

/-- C4 (amended): on an open, running device `flush` and `stop` set `written`,
`played` and `is_running` to 0 and leave the callback-seen flag and the callback
timestamp as they were; the restart that `play` performs on an open, non-running
device sets `written`, `played`, the timestamp and the flag to 0 and
`is_running` to 1; in all three cases a delay estimate taken immediately
afterwards is 0. -/
theorem C4_reset_law (s r : State) (now : Nat) (cell : Int)
    (hs : s.hdl = true ∧ s.is_running ≠ 0) (hsf : s.framesize ≠ 0) (hsr : InRange s)
    (hr : r.hdl = true ∧ r.is_running = 0) (hrf : r.framesize ≠ 0) (hrr : InRange r) :
    ((flush s).written = 0 ∧ (flush s).played = 0 ∧ (flush s).is_running = 0 ∧
      (flush s).at_least_one_onmove_cb_seen = s.at_least_one_onmove_cb_seen ∧
      (flush s).time_of_last_onmove_cb = s.time_of_last_onmove_cb ∧
      get_delay (flush s) now (some cell) = some (0, some 0) ∧
      delay (flush s) now (some cell)
        = some { state := flush s, result := 0, delay := some 0 }) ∧
    ((stop s).written = 0 ∧ (stop s).played = 0 ∧ (stop s).is_running = 0 ∧
      (stop s).at_least_one_onmove_cb_seen = s.at_least_one_onmove_cb_seen ∧
      (stop s).time_of_last_onmove_cb = s.time_of_last_onmove_cb ∧
      get_delay (stop s) now (some cell) = some (0, some 0) ∧
      delay (stop s) now (some cell)
        = some { state := stop s, result := 0, delay := some 0 }) ∧
    ((play_restart r).written = 0 ∧ (play_restart r).played = 0 ∧
      (play_restart r).is_running = 1 ∧
      (play_restart r).at_least_one_onmove_cb_seen = 0 ∧
      (play_restart r).time_of_last_onmove_cb = 0 ∧
      get_delay (play_restart r) now (some cell) = some (0, some 0) ∧
      delay (play_restart r) now (some cell)
        = some { state := play_restart r, result := 0, delay := some 0 }) := by
  obtain ⟨hs1, hs2⟩ := hs
  obtain ⟨hr1, hr2⟩ := hr
  have hflush : flush s = { s with written := 0, played := 0, is_running := 0 } := by
    unfold flush; rw [if_pos hs1, if_pos hs2]
  have hstop : stop s = { s with written := 0, played := 0, is_running := 0 } := by
    unfold stop; rw [if_pos hs1, if_pos hs2]
  have hplay : play_restart r =
      { r with
        is_running := 1
        written := 0
        played := 0
        time_of_last_onmove_cb := 0
        at_least_one_onmove_cb_seen := 0 } := by
    unfold play_restart; rw [if_pos hr2, if_pos hr1]
  have hsr' : InRange { s with written := 0, played := 0, is_running := 0 } := by
    unfold InRange at hsr ⊢
    exact ⟨by constructor <;> norm_num, hsr.2.1, by norm_num, by norm_num, hsr.2.2.2.2.1,
      hsr.2.2.2.2.2.1, hsr.2.2.2.2.2.2⟩
  have hrr' : InRange
      { r with
        is_running := 1
        written := 0
        played := 0
        time_of_last_onmove_cb := 0
        at_least_one_onmove_cb_seen := 0 } := by
    unfold InRange at hrr ⊢
    exact ⟨by constructor <;> norm_num, hrr.2.1, by norm_num, by norm_num, by norm_num,
      by constructor <;> norm_num, hrr.2.2.2.2.2.2⟩
  have hgs := get_delay_zero_counters { s with written := 0, played := 0, is_running := 0 }
    now cell hsf hsr' rfl rfl
  have hgr := get_delay_zero_counters
      { r with
        is_running := 1
        written := 0
        played := 0
        time_of_last_onmove_cb := 0
        at_least_one_onmove_cb_seen := 0 } now cell hrf hrr' rfl rfl
  have hds := delay_open_not_running { s with written := 0, played := 0, is_running := 0 }
    now (some cell) hs1 rfl
  have hdr := delay_running
      { r with
        is_running := 1
        written := 0
        played := 0
        time_of_last_onmove_cb := 0
        at_least_one_onmove_cb_seen := 0 } now (some cell) hr1 (by norm_num)
  rw [hgr] at hdr
  rw [hflush, hstop, hplay]
  exact ⟨⟨rfl, rfl, rfl, rfl, rfl, hgs, hds⟩, ⟨rfl, rfl, rfl, rfl, rfl, hgs, hds⟩,
    ⟨rfl, rfl, rfl, rfl, rfl, hgr, hdr⟩⟩

/-- C4 at the scenario state: `flush`, then the restart of `play`. -/
theorem C4_witness :
    (flush scenario_state).written = 0 ∧
    (flush scenario_state).at_least_one_onmove_cb_seen = 1 ∧
    get_delay (flush scenario_state) 2000000000 (some 7) = some (0, some 0) ∧
    (play_restart (flush scenario_state)).at_least_one_onmove_cb_seen = 0 :=
  have h := C4_reset_law scenario_state (flush scenario_state) 2000000000 7
    (by decide) (by decide) (by decide) (by decide) (by decide) (by decide)
  ⟨h.1.1, h.1.2.2.2.1, h.1.2.2.2.2.2.1, h.2.2.2.2.2.1⟩

/-! ## C6: the delay query on a device that is not open or not running -/

/-- What `delay` does when the device is not open or not running: status 0,
module state unchanged, estimator not consulted (the outcome is defined even
where `get_delay` would divide by zero and does not mention the clock); the
cell of the caller is set to 0 only when the handle is open. -/
theorem delay_without_running_device (s : State) (now : Nat) (d : Option Int)
    (h : s.hdl = false ∨ s.is_running = 0) :
    delay s now d
      = some { state := s, result := 0, delay := if s.hdl then d.map fun _ => 0 else d } := by
  cases hh : s.hdl with
  | false => rw [delay_not_open s now d hh]; rfl
  | true =>
    rcases h with h | h
    · rw [hh] at h; cases h
    · rw [delay_open_not_running s now d hh h]; rfl

/-- C6: after `deinit` the handle is NULL, and a delay query that passes a cell
holding 12345 returns status 0 and leaves 12345 in the cell: the value reported
to the caller is not zero. -/
theorem C6_delay_not_open_leaves_cell :
    (deinit scenario_state).hdl = false ∧
    delay (deinit scenario_state) 2000000000 (some 12345)
      = some { state := deinit scenario_state, result := 0, delay := some 12345 } ∧
    delay (flush scenario_state) 2000000000 (some 12345)
      = some { state := flush scenario_state, result := 0, delay := some 0 } := by
  decide

/-! ## C9: the counter invariant -/

theorem add64_le (a b : Nat) : add64 a b ≤ a + b := by
  unfold add64; exact Nat.mod_le _ _

theorem int_to_size_t_le {i : Int} (h : 0 ≤ i) : (int_to_size_t i : Int) ≤ i := by
  unfold int_to_size_t; omega

theorem play_restart_framesize (s : State) : (play_restart s).framesize = s.framesize := by
  unfold play_restart; split_ifs <;> rfl

theorem play_restart_inv (s : State) (h : CounterInv s) : CounterInv (play_restart s) := by
  unfold play_restart
  split_ifs
  · unfold CounterInv; exact Nat.zero_le _
  · exact h
  · exact h

theorem step_framesize (s : State) (e : Event) : (step s e).framesize = s.framesize := by
  cases e with
  | play frames n =>
    show (play s frames n).framesize = _
    unfold play; split_ifs
    · exact play_restart_framesize s
    · rfl
  | stop => show (stop s).framesize = _; unfold stop; split_ifs <;> rfl
  | flush => show (flush s).framesize = _; unfold flush; split_ifs <;> rfl
  | delay now d =>
    show (match delay s now d with | some r => r.state | none => s).framesize = _
    unfold delay; split_ifs
    · cases get_delay s now d <;> rfl
    · rfl
    · rfl
  | onmove_cb now delta => rfl
  | deinit => show (deinit s).framesize = _; unfold deinit; split_ifs <;> rfl

/-- Each call keeps `played <= written / framesize` when the surroundings meet
`EnvOk`. -/
theorem step_inv (s : State) (e : Event) (h : CounterInv s) (he : EnvOk s e) :
    CounterInv (step s e) := by
  cases e with
  | play frames n =>
    show CounterInv (play s frames n)
    unfold play
    split_ifs with hf
    · have h1 := play_restart_inv s h
      have h2 : (play_restart s).written + n < 2 ^ 64 := he hf
      unfold CounterInv at h1 ⊢
      show (play_restart s).played
        ≤ add64 (play_restart s).written n / int_to_size_t (play_restart s).framesize
      rw [add64_eq h2]
      exact le_trans h1 (Nat.div_le_div_right (Nat.le_add_right _ _))
    · exact h
  | stop =>
    show CounterInv (stop s)
    unfold stop; split_ifs
    · unfold CounterInv; exact Nat.zero_le _
    · exact h
    · exact h
  | flush =>
    show CounterInv (flush s)
    unfold flush; split_ifs
    · unfold CounterInv; exact Nat.zero_le _
    · exact h
    · exact h
  | delay now d =>
    show CounterInv (match delay s now d with | some r => r.state | none => s)
    unfold delay; split_ifs
    · cases get_delay s now d <;> exact h
    · exact h
    · exact h
  | onmove_cb now delta =>
    obtain ⟨h0, h1⟩ : 0 ≤ delta ∧
        (s.played : Int) + delta ≤ ((s.written / int_to_size_t s.framesize : Nat) : Int) := he
    show add64 s.played (int_to_size_t delta) ≤ s.written / int_to_size_t s.framesize
    have h2 := add64_le s.played (int_to_size_t delta)
    have h3 := int_to_size_t_le h0
    omega
  | deinit =>
    show CounterInv (deinit s)
    unfold deinit; split_ifs
    · exact h
    · exact h
    · exact h

theorem run_inv (es : List Event) :
    ∀ s : State, CounterInv s → TraceOk s es →
      CounterInv (run s es) ∧ (run s es).framesize = s.framesize := by
  induction es with
  | nil => intro s h _; exact ⟨h, rfl⟩
  | cons e es ih =>
    intro s h ht
    obtain ⟨he, hes⟩ : EnvOk s e ∧ TraceOk (step s e) es := ht
    have := ih (step s e) (step_inv s e h he) hes
    exact ⟨this.1, this.2.trans (step_framesize s e)⟩

/-- C9 (as stated, refuted): from the state `init` establishes (frame size 4)
one `play` that writes 4 bytes followed by a position callback reporting 2
frames gives `played = 2` against `written / framesize = 1`.  The invariant is
also lost when the byte counter `written` wraps in `play`. -/
theorem C9_counterexample :
    InitState init_state_example ∧
    (run init_state_example [Event.play 1 4, Event.onmove_cb 1000 2]).played = 2 ∧
    (run init_state_example [Event.play 1 4, Event.onmove_cb 1000 2]).written = 4 ∧
    ¬ CounterInv (run init_state_example [Event.play 1 4, Event.onmove_cb 1000 2]) ∧
    ¬ CounterInv (run init_state_example
      [Event.play 1 (2 ^ 64 - 4), Event.onmove_cb 1000 1, Event.play 1 4]) := by
  decide

/-- C9 (amended): starting from the state established by `init`, every
sequence of `play`, `stop`, `flush`, delay query, `deinit` and `onmove_cb(delta)`
calls in which `written` does not wrap and every reported `delta` is
non-negative with `played + delta <= written / framesize` keeps
`played <= written / framesize` and the frame size; `onmove_cb` itself adds
`delta` to `played` unchecked. -/
theorem C9_counter_invariant (s : State) (es : List Event)
    (hinit : InitState s) (henv : TraceOk s es) :
    CounterInv (run s es) ∧ 0 < (run s es).framesize ∧
    ∀ now delta, (onmove_cb (run s es) now delta).played
      = add64 (run s es).played (int_to_size_t delta) := by
  have h0 : CounterInv s := by
    unfold CounterInv; rw [hinit.2.2.1]; exact Nat.zero_le _
  have h := run_inv es s h0 henv
  exact ⟨h.1, by rw [h.2]; exact hinit.2.2.2.2.2.2.1, fun _ _ => rfl⟩

/-- C9 on a run in which the device reports one frame at a time after two were
written. -/
theorem C9_witness :
    CounterInv (run init_state_example
      [Event.play 2 8, Event.onmove_cb 1000 1, Event.delay 2000 (some 0), Event.onmove_cb 3000 1,
       Event.flush, Event.play 1 4, Event.stop]) :=
  (C9_counter_invariant init_state_example
      [Event.play 2 8, Event.onmove_cb 1000 1, Event.delay 2000 (some 0), Event.onmove_cb 3000 1,
       Event.flush, Event.play 1 4, Event.stop] (by decide) (by decide)).1

/-! ## C7: rate validation -/

/-- The rate test of line 105 holds exactly for the eight rates `44100 * k`,
`k = 1..8`. -/
theorem rate_test_iff (rate : Int) :
    (Int.tmod rate 44100 = 0 ∧ rate ≥ 44100 ∧ rate ≤ 352800) ↔
      rate ∈ [44100, 88200, 132300, 176400, 220500, 264600, 308700, 352800] := by
  simp only [List.mem_cons, List.mem_singleton, List.not_mem_nil, or_false]
  constructor
  · rintro ⟨h1, h2, h3⟩
    rw [Int.tmod_eq_emod (by omega) (by norm_num)] at h1
    omega
  · rintro (h | h | h | h | h | h | h | h) <;> subst h <;> decide

theorem init_rate_error (par : sio_par) (r : Option Int) (e : Fatal)
    (h : init_rate par r = Except.error e) : e = Fatal.rate := by
  unfold init_rate at h
  split at h
  · cases h
  · split_ifs at h
    cases h; rfl

theorem init_bufsz_error (par : sio_par) (r : Option Int) (e : Fatal)
    (h : init_bufsz par r = Except.error e) : e = Fatal.bufsz := by
  unfold init_bufsz at h
  split at h
  · cases h
  · split_ifs at h
    cases h; rfl

theorem init_round_error (par : sio_par) (r : Option Int) (e : Fatal)
    (h : init_round par r = Except.error e) : e = Fatal.round := by
  unfold init_round at h
  split at h
  · cases h
  · split_ifs at h
    cases h; rfl

theorem init_format_error (n : Nat) (f : sps_format_t) (r : Option String) (e : Fatal)
    (h : init_format n f r = Except.error e) : ∃ tmp, e = Fatal.format tmp := by
  unfold init_format at h
  split at h
  · cases h
  · split at h
    · cases h
    · cases h; exact ⟨_, rfl⟩

theorem init_getopt_error (opts : List (Int × String)) :
    ∀ (d : String) (e : Fatal), init_getopt d opts = Except.error e → ∃ opt, e = Fatal.option opt := by
  induction opts with
  | nil => intro d e h; cases h
  | cons o rest ih =>
    intro d e h
    obtain ⟨opt, optarg⟩ := o
    unfold init_getopt at h
    split_ifs at h
    · exact ih _ _ h
    · cases h; exact ⟨_, rfl⟩

theorem init_device_error_ne_rate (n : Nat) (st : InitSettings) (dev : Device)
    (h : init_device n st dev = Except.error Fatal.rate) : False := by
  unfold init_device at h
  split_ifs at h
  · cases h
  · split at h
    · cases h
    · split at h
      · cases h
      · split_ifs at h <;> cases h


theorem bind_error_iff {α β : Type} (x : Except Fatal α) (f : α → Except Fatal β) (e : Fatal) :
    (x >>= f) = Except.error e ↔ x = Except.error e ∨ ∃ a, x = Except.ok a ∧ f a = Except.error e := by
  cases x <;> simp [bind, Except.bind]

theorem bind_ok_iff {α β : Type} (x : Except Fatal α) (f : α → Except Fatal β) (b : β) :
    (x >>= f) = Except.ok b ↔ ∃ a, x = Except.ok a ∧ f a = Except.ok b := by
  cases x <;> simp [bind, Except.bind]

theorem init_config_error_rate_iff (n : Nat) (cfg : Settings) :
    init_config n cfg = Except.error Fatal.rate ↔
      cfg.cfg = true ∧ init_rate
        { sio_initpar with rate := 44100, pchan := 2, bits := 16, bps := SIO_BPS 16, le := 1,
                           sig := 1 } cfg.rate = Except.error Fatal.rate := by
  unfold init_config
  cases hc : cfg.cfg with
  | false => simp [pure, Except.pure]
  | true =>
    simp only [if_true, true_and, bind_error_iff, pure, Except.pure]
    constructor
    · rintro (h | ⟨a, -, h | ⟨a2, -, h | ⟨a3, -, h | ⟨a4, -, h⟩⟩⟩⟩)
      · exact h
      · cases init_bufsz_error _ _ _ h
      · cases init_round_error _ _ _ h
      · obtain ⟨t, ht⟩ := init_format_error _ _ _ _ h; cases ht
      · cases h
    · intro h; exact Or.inl h

theorem init_error_rate_iff (n : Nat) (cfg : Settings) (opts : List (Int × String))
    (b : Bool) (dev : Device) :
    init n cfg opts b dev = Except.error Fatal.rate ↔
      cfg.cfg = true ∧ init_rate
        { sio_initpar with rate := 44100, pchan := 2, bits := 16, bps := SIO_BPS 16, le := 1,
                           sig := 1 } cfg.rate = Except.error Fatal.rate := by
  rw [← init_config_error_rate_iff n cfg]
  unfold init init_settings
  simp only [bind_error_iff]
  constructor
  · rintro ((h | ⟨c, -, h | ⟨d, -, h⟩⟩) | ⟨st, -, h⟩)
    · exact h
    · obtain ⟨o, ho⟩ := init_getopt_error _ _ _ h; cases ho
    · split_ifs at h <;> cases h
    · exact (init_device_error_ne_rate _ _ _ h).elim
  · intro h; exact Or.inl (Or.inl h)

theorem init_rate_some (par : sio_par) (rate : Int) :
    init_rate par (some rate) =
      if Int.tmod rate 44100 = 0 ∧ rate ≥ 44100 ∧ rate ≤ 352800 then
        Except.ok { par with rate := to_uint rate }
      else Except.error Fatal.rate := rfl

theorem init_settings_ok_rate (n : Nat) (cfg : Settings) (opts : List (Int × String))
    (b : Bool) (st : InitSettings) (rate : Int) (hc : cfg.cfg = true)
    (hr : cfg.rate = some rate) (h : init_settings n cfg opts b = Except.ok st) :
    rate ∈ [44100, 88200, 132300, 176400, 220500, 264600, 308700, 352800] ∧
    st.par.rate = rate.toNat := by
  unfold init_settings init_config at h
  rw [hc, hr] at h
  simp only [if_true, bind_ok_iff, pure, Except.pure] at h
  obtain ⟨c, ⟨p1, h1, p2, h2, p3, h3, f, -, hc⟩, d, -, h⟩ := h
  have e1 : (Int.tmod rate 44100 = 0 ∧ rate ≥ 44100 ∧ rate ≤ 352800) ∧
      p1.rate = to_uint rate := by
    rw [init_rate_some] at h1
    split_ifs at h1 with ht
    cases h1; exact ⟨ht, rfl⟩
  have e2 : p2.rate = p1.rate := by
    unfold init_bufsz at h2
    split at h2
    · cases h2; rfl
    · split_ifs at h2
      cases h2; rfl
  have e3 : p3.rate = p2.rate := by
    unfold init_round at h3
    split at h3
    · cases h3; rfl
    · split_ifs at h3
      cases h3; rfl
  cases hc
  split_ifs at h
  cases h
  refine ⟨(rate_test_iff rate).1 e1.1, ?_⟩
  show p3.rate = _
  rw [e3, e2, e1.2]
  unfold to_uint
  have := e1.1.2.1
  omega

theorem init_rate_accepts (par : sio_par) (rate : Int)
    (h : rate ∈ [44100, 88200, 132300, 176400, 220500, 264600, 308700, 352800]) :
    init_rate par (some rate) = Except.ok { par with rate := rate.toNat } := by
  have h' := (rate_test_iff rate).2 h
  rw [init_rate_some, if_pos h']
  have : to_uint rate = rate.toNat := by unfold to_uint; omega
  rw [this]

theorem init_rate_rejects (par : sio_par) (rate : Int)
    (h : rate ∉ [44100, 88200, 132300, 176400, 220500, 264600, 308700, 352800]) :
    init_rate par (some rate) = Except.error Fatal.rate := by
  have h' := mt (rate_test_iff rate).1 h
  rw [init_rate_some, if_neg h']

/-- C7: a value read from `sndio.rate` is accepted (`par.rate` becomes the
value, no fatal exit) if and only if it is one of `44100 * k`, `k = 1..8`; every
other integer, including 0, negative multiples and multiples above 352800,
takes the fatal rate exit of `init`. -/
theorem C7_rate_validation (rate : Int) :
    (∀ par : sio_par,
      (init_rate par (some rate) = Except.ok { par with rate := rate.toNat } ↔
        rate ∈ [44100, 88200, 132300, 176400, 220500, 264600, 308700, 352800]) ∧
      (init_rate par (some rate) = Except.error Fatal.rate ↔
        rate ∉ [44100, 88200, 132300, 176400, 220500, 264600, 308700, 352800])) ∧
    (∀ (n : Nat) (cfg : Settings) (opts : List (Int × String)) (b : Bool) (dev : Device),
      cfg.cfg = true → cfg.rate = some rate →
      (init n cfg opts b dev = Except.error Fatal.rate ↔
        rate ∉ [44100, 88200, 132300, 176400, 220500, 264600, 308700, 352800]) ∧
      (∀ st, init_settings n cfg opts b = Except.ok st → st.par.rate = rate.toNat)) := by
  refine ⟨fun par => ⟨⟨fun h => ?_, init_rate_accepts par rate⟩,
    ⟨fun h => ?_, init_rate_rejects par rate⟩⟩, ?_⟩
  · by_contra hn
    rw [init_rate_rejects par rate hn] at h
    cases h
  · intro hn
    rw [init_rate_accepts par rate hn] at h
    cases h
  · intro n cfg opts b dev hc hr
    constructor
    · rw [init_error_rate_iff, hr]
      constructor
      · rintro ⟨-, h⟩ hn
        rw [init_rate_accepts _ rate hn] at h
        cases h
      · intro hn
        exact ⟨hc, init_rate_rejects _ rate hn⟩
    · intro st hst
      exact (init_settings_ok_rate n cfg opts b st rate hc hr hst).2

/-! ## C8: format negotiation -/

theorem lowcut_cons (c : Char) (cs : List Char) :
    lowcut (c :: cs) = if c.toLower.toNat = 0 then [] else c.toLower.toNat :: lowcut cs := rfl

theorem lowcut_eq_nil_iff (s : List Char) : lowcut s = [] ↔ cchar s = 0 := by
  cases s with
  | nil => simp [lowcut, cchar]
  | cons c cs =>
    unfold lowcut cchar
    split_ifs with h <;> simp [h]

/-- `strcasecmp` returns 0 exactly when the two strings agree up to case. -/
theorem strcasecmp_eq_zero_iff (a : List Char) :
    ∀ b : List Char, strcasecmp a b = 0 ↔ lowcut a = lowcut b := by
  induction a with
  | nil =>
    intro b
    unfold strcasecmp
    rw [show lowcut [] = [] from rfl, eq_comm (a := ([] : List Nat)), lowcut_eq_nil_iff]
    omega
  | cons c cs ih =>
    intro b
    unfold strcasecmp
    split_ifs with h1 h2
    · have ha : lowcut (c :: cs) = [] := (lowcut_eq_nil_iff _).2 h2
      have hb : lowcut b = [] := (lowcut_eq_nil_iff _).2 (h1 ▸ h2)
      rw [ha, hb]; simp
    · cases b with
      | nil => exact absurd h1 h2
      | cons d ds =>
        have hc : c.toLower.toNat ≠ 0 := h2
        have hd : d.toLower.toNat = c.toLower.toNat := h1.symm
        rw [List.tail_cons, ih ds, lowcut_cons, lowcut_cons, if_neg hc, if_neg (hd ▸ hc), hd]
        simp
    · have hne : (cchar (c :: cs) : Int) - (cchar b : Int) ≠ 0 := by omega
      simp only [hne, false_iff]
      intro heq
      apply h1
      cases b with
      | nil =>
        exact (lowcut_eq_nil_iff _).1 heq
      | cons d ds =>
        rw [lowcut_cons, lowcut_cons] at heq
        show c.toLower.toNat = d.toLower.toNat
        split_ifs at heq with hc hd hd
        · rw [hc, hd]
        · exact (List.cons.inj heq).1

theorem lookup_format_of_name (n : Nat) (hn : n = 0 ∨ n = 1) (e : sndio_formats)
    (he : e ∈ formats n) (tmp : String) (hname : strcasecmp e.name.toList tmp.toList = 0) :
    lookup_format n tmp = some e := by
  have hp : (fun f : sndio_formats => decide (strcasecmp f.name.toList tmp.toList = 0))
      = (fun f : sndio_formats => decide (lowcut f.name.toList = lowcut e.name.toList)) := by
    funext f
    have h := (strcasecmp_eq_zero_iff _ _).1 hname
    exact decide_eq_decide.2 ((strcasecmp_eq_zero_iff _ _).trans (by rw [h]))
  unfold lookup_format
  rw [hp]
  rcases hn with rfl | rfl
  · simp only [formats, List.mem_cons, List.mem_singleton, List.not_mem_nil, or_false] at he
    rcases he with rfl | rfl | rfl | rfl | rfl | rfl | rfl | rfl <;> decide
  · simp only [formats, List.mem_cons, List.mem_singleton, List.not_mem_nil, or_false] at he
    rcases he with rfl | rfl | rfl | rfl | rfl | rfl | rfl | rfl <;> decide

theorem load_format_of_entry (n : Nat) (e : sndio_formats) (he : e ∈ formats n) (par : sio_par) :
    load_format n e.fmt par = { par with bits := e.bits, bps := e.bps, sig := e.sig, le := e.le } := by
  simp only [formats, List.mem_cons, List.mem_singleton, List.not_mem_nil, or_false] at he
  rcases he with rfl | rfl | rfl | rfl | rfl | rfl | rfl | rfl <;> rfl

theorem match_format_of_entry (n : Nat) (e : sndio_formats) (he : e ∈ formats n) (par : sio_par)
    (h1 : par.bits = e.bits) (h2 : par.bps = e.bps) (h3 : par.sig = e.sig) (h4 : par.le = e.le)
    (h5 : par.rate = 44100) :
    ∃ g, match_format n par = some g ∧ g.fmt = e.fmt := by
  simp only [formats, List.mem_cons, List.mem_singleton, List.not_mem_nil, or_false] at he
  unfold match_format formats
  rcases he with rfl | rfl | rfl | rfl | rfl | rfl | rfl | rfl <;>
    simp [List.find?, h1, h2, h3, h4, h5]

theorem load_format_rate (n : Nat) (fmt : sps_format_t) (par : sio_par) :
    (load_format n fmt par).rate = par.rate := by
  unfold load_format
  split <;> rfl

theorem match_format_none_of_no_entry (n : Nat) (par : sio_par)
    (h : ∀ f ∈ formats n,
      ¬(f.bits = par.bits ∧ f.bps = par.bps ∧ f.sig = par.sig ∧ f.le = par.le)) :
    match_format n par = none := by
  unfold match_format
  rw [List.find?_eq_none]
  intro f hf hp
  have hp' := of_decide_eq_true hp
  exact h f hf ⟨hp'.1, hp'.2.1, hp'.2.2.1, hp'.2.2.2.1⟩

theorem formats_rate (n : Nat) (f : sndio_formats) (hf : f ∈ formats n) : f.rate = 44100 := by
  simp only [formats, List.mem_cons, List.mem_singleton, List.not_mem_nil, or_false] at hf
  rcases hf with rfl | rfl | rfl | rfl | rfl | rfl | rfl | rfl <;> rfl

theorem match_format_rate (n : Nat) (par : sio_par) (f : sndio_formats)
    (h : match_format n par = some f) : par.rate = 44100 := by
  unfold match_format at h
  have hp0 := List.find?_some h
  have hp : f.bits = par.bits ∧ f.bps = par.bps ∧ f.sig = par.sig ∧ f.le = par.le ∧
      f.rate = par.rate := of_decide_eq_true hp0
  have hm := List.mem_of_find?_eq_some h
  rw [← hp.2.2.2.2]
  exact formats_rate n f hm

theorem init_device_negotiate (n : Nat) (st : InitSettings) (dev : Device) (par : sio_par)
    (ho : dev.sio_open st.devname = true)
    (hd : dev.sio_setpar_getpar (load_format n st.output_format st.par) = some par)
    (hm : match_format n par = none) :
    init_device n st dev = Except.error Fatal.negotiate := by
  unfold init_device
  rw [if_neg (by simp [ho]), hd]
  simp only []
  rw [hm]

theorem init_device_ok (n : Nat) (st : InitSettings) (dev : Device) (r : InitResult)
    (h : init_device n st dev = Except.ok r) :
    ∃ par f, dev.sio_setpar_getpar (load_format n st.output_format st.par) = some par ∧
      match_format n par = some f ∧ r.output_format = f.fmt ∧ r.output_rate = par.rate ∧
      r.state.par = par ∧ r.state.framesize ≠ 0 ∧ r.state.hdl = true ∧ r.state.is_running = 0 ∧
      r.state.played = 0 ∧ r.state.written = 0 ∧ r.state.time_of_last_onmove_cb = 0 ∧
      r.state.at_least_one_onmove_cb_seen = 0 := by
  unfold init_device at h
  split_ifs at h
  split at h
  · cases h
  · rename_i par hpar
    split at h
    · cases h
    · rename_i f hf
      split_ifs at h with h0 h1
      cases h
      exact ⟨par, f, hpar, hf, rfl, rfl, rfl, h1, rfl, rfl, rfl, rfl, rfl, rfl⟩

theorem init_device_ok_of_match (n : Nat) (st : InitSettings) (dev : Device) (par : sio_par)
    (g : sndio_formats) (ho : dev.sio_open st.devname = true)
    (hd : dev.sio_setpar_getpar (load_format n st.output_format st.par) = some par)
    (hm : match_format n par = some g)
    (hf : to_int ((par.bps * par.pchan) % 2 ^ 32) ≠ 0) :
    ∃ r, init_device n st dev = Except.ok r ∧ r.output_format = g.fmt ∧ r.state.par = par := by
  have hr : par.rate ≠ 0 := by rw [match_format_rate n par g hm]; norm_num
  unfold init_device
  rw [if_neg (by simp [ho]), hd]
  simp only []
  rw [hm]
  simp only []
  rw [if_neg hr, if_neg hf]
  exact ⟨_, rfl, rfl, rfl⟩

/-- C8: for every entry of the `formats` table and either value of
`SIO_LE_NATIVE`, any spelling of the entry name that `strcasecmp` accepts selects
the logical format of the entry, loading that format puts the bits, bps, sig and
le of the entry into `par`, and when the device reports exactly these at rate
44100 the match after negotiation finds the same logical format, so `init`
succeeds with `config.output_format` unchanged.  The name "S24_3LE" selects
bits 24, bps 3, sig 1, le 1.  Device parameters that agree with no table entry
in bits, bps, sig and le end in the fatal negotiation exit. -/
theorem C8_format_round_trip (n : Nat) (hn : n = 0 ∨ n = 1) (e : sndio_formats)
    (he : e ∈ formats n) (tmp : String) (hname : strcasecmp e.name.toList tmp.toList = 0)
    (fmt0 : sps_format_t) (par : sio_par) :
    lookup_format n tmp = some e ∧
    init_format n fmt0 (some tmp) = Except.ok e.fmt ∧
    load_format n e.fmt par
      = { par with bits := e.bits, bps := e.bps, sig := e.sig, le := e.le } ∧
    (∀ dev_par : sio_par,
      dev_par.bits = e.bits → dev_par.bps = e.bps → dev_par.sig = e.sig → dev_par.le = e.le →
      dev_par.rate = 44100 →
      (∃ g, match_format n dev_par = some g ∧ g.fmt = e.fmt) ∧
      ∀ (st : InitSettings) (dev : Device),
        st.output_format = e.fmt → dev.sio_open st.devname = true →
        dev.sio_setpar_getpar (load_format n e.fmt st.par) = some dev_par →
        to_int ((dev_par.bps * dev_par.pchan) % 2 ^ 32) ≠ 0 →
        ∃ r, init_device n st dev = Except.ok r ∧ r.output_format = e.fmt) ∧
    lookup_format n "S24_3LE"
      = some { name := "S24_3LE", fmt := SPS_FORMAT_S24_3LE, rate := 44100, bits := 24,
               bps := 3, sig := 1, le := 1 } ∧
    (∀ dev_par : sio_par,
      (∀ f ∈ formats n, ¬(f.bits = dev_par.bits ∧ f.bps = dev_par.bps ∧ f.sig = dev_par.sig ∧
        f.le = dev_par.le)) →
      match_format n dev_par = none ∧
      ∀ (st : InitSettings) (dev : Device), dev.sio_open st.devname = true →
        dev.sio_setpar_getpar (load_format n st.output_format st.par) = some dev_par →
        init_device n st dev = Except.error Fatal.negotiate) := by
  have hlook := lookup_format_of_name n hn e he tmp hname
  refine ⟨hlook, ?_, load_format_of_entry n e he par, ?_, ?_, ?_⟩
  · show (match lookup_format n tmp with
      | some f => Except.ok f.fmt
      | none => Except.error (Fatal.format tmp)) = _
    rw [hlook]
  · intro dev_par h1 h2 h3 h4 h5
    have hm := match_format_of_entry n e he dev_par h1 h2 h3 h4 h5
    refine ⟨hm, fun st dev hfmt ho hd hf => ?_⟩
    obtain ⟨g, hg, hge⟩ := hm
    rw [← hfmt] at hd
    obtain ⟨r, hr, hro, -⟩ := init_device_ok_of_match n st dev dev_par g ho hd hg hf
    exact ⟨r, hr, hro.trans hge⟩
  · rcases hn with rfl | rfl <;> decide
  · intro dev_par hno
    have hm := match_format_none_of_no_entry n dev_par hno
    exact ⟨hm, fun st dev ho hd => init_device_negotiate n st dev dev_par ho hd hm⟩

/-- C8 at the lower-case spelling of S24_3LE on a little-endian host. -/
theorem C8_witness :
    lookup_format 1 "s24_3le"
      = some { name := "S24_3LE", fmt := SPS_FORMAT_S24_3LE, rate := 44100, bits := 24,
               bps := 3, sig := 1, le := 1 } ∧
    init_format 1 (SPS_FORMAT_OTHER 0) (some "s24_3le") = Except.ok SPS_FORMAT_S24_3LE :=
  have h := C8_format_round_trip 1 (Or.inr rfl)
    { name := "S24_3LE", fmt := SPS_FORMAT_S24_3LE, rate := 44100, bits := 24, bps := 3,
      sig := 1, le := 1 }
    (by decide) "s24_3le" (by decide) (SPS_FORMAT_OTHER 0) sio_initpar
  ⟨h.1, h.2.1⟩

/-- C7 at the rates 88200, 0, -44100, 396900 and 48000. -/
theorem C7_witness :
    init_rate sio_initpar (some 88200) = Except.ok { sio_initpar with rate := 88200 } ∧
    init_rate sio_initpar (some 0) = Except.error Fatal.rate ∧
    init_rate sio_initpar (some (-44100)) = Except.error Fatal.rate ∧
    init_rate sio_initpar (some 396900) = Except.error Fatal.rate ∧
    init 1 (example_settings 48000 "S16") [] false echo_device = Except.error Fatal.rate :=
  ⟨((C7_rate_validation 88200).1 sio_initpar).1.2 (by decide),
   ((C7_rate_validation 0).1 sio_initpar).2.2 (by decide),
   ((C7_rate_validation (-44100)).1 sio_initpar).2.2 (by decide),
   ((C7_rate_validation 396900).1 sio_initpar).2.2 (by decide),
   ((C7_rate_validation 48000).2 1 (example_settings 48000 "S16") [] false echo_device rfl rfl).1.2
     (by decide)⟩

/-! ## C10: only 44100 Hz survives the match after negotiation -/

theorem init_ok_iff (n : Nat) (cfg : Settings) (opts : List (Int × String)) (b : Bool)
    (dev : Device) (r : InitResult) :
    init n cfg opts b dev = Except.ok r ↔
      ∃ st, init_settings n cfg opts b = Except.ok st ∧ init_device n st dev = Except.ok r := by
  unfold init
  exact bind_ok_iff _ _ _

/-- C10: the match after negotiation succeeds only at rate 44100, because every
table entry has rate 44100.  Each configured rate `44100 * k`, `k = 2..8`, passes
the rate validation, yet no parameters at that rate match an entry whatever
their bits, bps, sig and le are; so when the device honours the requested rate
`init` never succeeds, and once the device has been opened and has reported its
parameters `init` ends in the fatal negotiation exit. -/
theorem C10_only_44100_negotiates (n : Nat) :
    (∀ (par : sio_par) (f : sndio_formats), match_format n par = some f → par.rate = 44100) ∧
    (∀ (cfg : Settings) (opts : List (Int × String)) (b : Bool) (dev : Device) (r : InitResult),
      init n cfg opts b dev = Except.ok r → r.output_rate = 44100 ∧ r.state.par.rate = 44100) ∧
    (∀ k : Nat, 2 ≤ k → k ≤ 8 →
      (∀ par0 : sio_par,
        init_rate par0 (some (44100 * (k : Int))) = Except.ok { par0 with rate := 44100 * k }) ∧
      (∀ par : sio_par, par.rate = 44100 * k → match_format n par = none) ∧
      (∀ (cfg : Settings) (opts : List (Int × String)) (b : Bool) (dev : Device),
        cfg.cfg = true → cfg.rate = some (44100 * (k : Int)) →
        (∀ req p, dev.sio_setpar_getpar req = some p → p.rate = req.rate) →
        (∀ r, init n cfg opts b dev ≠ Except.ok r) ∧
        (∀ st p, init_settings n cfg opts b = Except.ok st → dev.sio_open st.devname = true →
          dev.sio_setpar_getpar (load_format n st.output_format st.par) = some p →
          init n cfg opts b dev = Except.error Fatal.negotiate))) := by
  have hmatch : ∀ (par : sio_par) (f : sndio_formats),
      match_format n par = some f → par.rate = 44100 := fun par f h => match_format_rate n par f h
  have hnone : ∀ (k : Nat), 2 ≤ k → ∀ par : sio_par, par.rate = 44100 * k →
      match_format n par = none := by
    intro k hk par hpar
    cases hm : match_format n par with
    | none => rfl
    | some f =>
      have := hmatch par f hm
      omega
  refine ⟨hmatch, ?_, ?_⟩
  · intro cfg opts b dev r h
    obtain ⟨st, -, hd⟩ := (init_ok_iff _ _ _ _ _ _).1 h
    obtain ⟨par, f, -, hm, -, hrate, hpar, -⟩ := init_device_ok n st dev r hd
    have h44 := hmatch par f hm
    exact ⟨hrate.trans h44, by rw [hpar]; exact h44⟩
  · intro k hk2 hk8
    have hvalid : (44100 * (k : Int)) ∈
        [(44100 : Int), 88200, 132300, 176400, 220500, 264600, 308700, 352800] := by
      simp only [List.mem_cons, List.mem_singleton, List.not_mem_nil, or_false]
      omega
    have htoNat : (44100 * (k : Int)).toNat = 44100 * k := by omega
    refine ⟨fun par0 => ?_, hnone k hk2, ?_⟩
    · have := init_rate_accepts par0 (44100 * (k : Int)) hvalid
      rw [htoNat] at this
      exact this
    · intro cfg opts b dev hc hr hdev
      have hst : ∀ st, init_settings n cfg opts b = Except.ok st → st.par.rate = 44100 * k := by
        intro st h
        have := (init_settings_ok_rate n cfg opts b st (44100 * (k : Int)) hc hr h).2
        rw [htoNat] at this
        exact this
      constructor
      · intro r h
        obtain ⟨st, hs, hd⟩ := (init_ok_iff _ _ _ _ _ _).1 h
        obtain ⟨par, f, hp, hm, -⟩ := init_device_ok n st dev r hd
        have h1 := hdev _ _ hp
        rw [load_format_rate, hst st hs] at h1
        have h2 := hmatch par f hm
        omega
      · intro st p hs ho hp
        have h1 := hdev _ _ hp
        rw [load_format_rate, hst st hs] at h1
        unfold init
        rw [hs]
        exact init_device_negotiate n st dev p ho hp (hnone k hk2 p h1)

/-- C10 at the configured rate 88200 with a device that honours every request. -/
theorem C10_witness :
    init 1 (example_settings 88200 "S16") [] false echo_device = Except.error Fatal.negotiate ∧
    match_format 1
      { bits := 16, bps := 2, sig := 1, le := 1, pchan := 2, rate := 88200, bufsz := 8820,
        round := 0, appbufsz := 0 } = none :=
  ⟨((C10_only_44100_negotiates 1).2.2 2 (by decide) (by decide)).2.2
      (example_settings 88200 "S16") [] false echo_device rfl rfl
      (fun _ _ h => by cases h; rfl) |>.2
      { par := { sio_initpar with rate := 88200, pchan := 2, bits := 16, bps := SIO_BPS 16,
                                  le := 1, sig := 1 }
        output_format := SPS_FORMAT_S16
        devname := SIO_DEVANY }
      _ rfl rfl rfl,
   ((C10_only_44100_negotiates 1).2.2 2 (by decide) (by decide)).2.1 _ rfl⟩

end AudioSndio
